import Mathlib

set_option maxHeartbeats 1000000

/-!
# Verification of the rdd block-copy utility

Shallow embedding of the rdd sources (src/cli.rs, src/config.rs, src/error.rs,
src/main.rs, src/core/copy.rs) and proofs about them.

Modelling conventions:
* Machine integers (`u64`, `usize`) are `Nat` with explicit `% 2 ^ 64`
  where the program's arithmetic can wrap (release-mode Rust semantics).
  The platform is 64-bit unless a theorem abstracts over `usizeMax`.
* File contents are `List Nat` (byte values).
* The only effectful function, `run_singlethreaded_copy`, is embedded as a
  pure function from an explicit environment (input-file contents plus
  failure-injection switches for each fallible I/O call) to a result, a
  trace of the I/O effects that actually happened, and the resulting
  contents of the output file.
-/

/-- The constant `2 ^ 64`, modulus of the program's `u64` machine arithmetic. -/
def U64_MOD : Nat := 2 ^ 64

/-- The value of `usize::MAX` on the 64-bit targets the repository is normally built for. -/
def USIZE_MAX64 : Nat := 2 ^ 64 - 1

/-- From src/cli.rs: supported hashing algorithms for the `--verify` flag. -/
inductive HashAlgorithm
  | Sha256
  | Blake3
deriving DecidableEq

/-- The distinct `RddError::Config` message templates produced by
src/config.rs (`parse_size`, `CopyConfig::from_args`); the `format!`
arguments are abstracted away, one constructor per distinct template. -/
inductive ConfigCause
  | emptySize
  | invalidNumeric
  | unknownSuffix
  | overflow
  | tooLargeForArch
  | zeroBlockSize
deriving DecidableEq

/-- The I/O calls of `run_singlethreaded_copy` that can fail; identifies
which underlying call produced an `RddError::Io` value. -/
inductive IoOp
  | openInput
  | openOutput
  | seekInput
  | seekOutput
  | readOp
  | writeOp
  | flushOp
deriving DecidableEq

/-- From src/error.rs: the unified error enum `RddError`. The `Io` payload
(a `std::io::Error`) is modelled by the operation that failed; the `Config`
payload (a `String`) by its message template. -/
inductive RddError
  | IoError (op : IoOp)
  | Config (cause : ConfigCause)
  | VerificationFailure (expected actual : String)
  | Channel (msg : String)
  | NotImplemented (msg : String)
deriving DecidableEq

/-- Rust `char::is_ascii_digit`: `'0'` (48) through `'9'` (57). -/
def isAsciiDigit (c : Char) : Bool :=
  decide (48 ≤ c.toNat ∧ c.toNat ≤ 57)

/-- ASCII fragment of Rust `char::is_whitespace` as used by `str::trim`
(space and the control characters TAB through CR); the size strings in the
claims contain no non-ASCII whitespace. -/
def isWhitespaceChar (c : Char) : Bool :=
  decide (c.toNat = 32 ∨ (9 ≤ c.toNat ∧ c.toNat ≤ 13))

/-- ASCII fragment of Rust `str::to_lowercase`, mapping `A`..`Z` to
`a`..`z` and leaving every other character unchanged. -/
def toLowerAscii : Char → Char
  | 'A' => 'a' | 'B' => 'b' | 'C' => 'c' | 'D' => 'd' | 'E' => 'e'
  | 'F' => 'f' | 'G' => 'g' | 'H' => 'h' | 'I' => 'i' | 'J' => 'j'
  | 'K' => 'k' | 'L' => 'l' | 'M' => 'm' | 'N' => 'n' | 'O' => 'o'
  | 'P' => 'p' | 'Q' => 'q' | 'R' => 'r' | 'S' => 's' | 'T' => 't'
  | 'U' => 'u' | 'V' => 'v' | 'W' => 'w' | 'X' => 'x' | 'Y' => 'y'
  | 'Z' => 'z'
  | c => c

/-- Rust `str::trim` on a character list: drop whitespace from both ends. -/
def trimChars (cs : List Char) : List Char :=
  ((cs.dropWhile isWhitespaceChar).reverse.dropWhile isWhitespaceChar).reverse

/-- Value of a decimal digit string (the accumulating evaluation performed
by Rust `str::parse::<u64>` on an all-digit string). -/
def digitsToNat (cs : List Char) : Nat :=
  cs.foldl (fun acc c => acc * 10 + (c.toNat - 48)) 0

/-- Rust `str::parse::<u64>` restricted to the argument shapes reachable in
`parse_size` (the numeric portion is all ASCII digits by construction):
succeeds exactly on a nonempty all-digit string whose value fits in `u64`. -/
def parseU64 (cs : List Char) : Option Nat :=
  if cs ≠ [] ∧ cs.all isAsciiDigit ∧ digitsToNat cs < U64_MOD then
    some (digitsToNat cs)
  else
    none

/-- The suffix-to-multiplier `match` of `parse_size` (src/config.rs:86-98):
`""` means bytes, `k`/`kb` `m`/`mb` `g`/`gb` `t`/`tb` are binary multiples,
anything else is an unknown suffix. -/
def multiplierOf (s : List Char) : Option Nat :=
  if s = [] then some 1
  else if s = ['k'] ∨ s = ['k', 'b'] then some 1024
  else if s = ['m'] ∨ s = ['m', 'b'] then some (1024 * 1024)
  else if s = ['g'] ∨ s = ['g', 'b'] then some (1024 * 1024 * 1024)
  else if s = ['t'] ∨ s = ['t', 'b'] then some (1024 * 1024 * 1024 * 1024)
  else none

/-- src/config.rs `parse_size`, parameterised by the platform's
`usize::MAX` (`usize::try_from` on a `u64` fails exactly when the value
exceeds it): trim, reject empty, lowercase, split at the first non-digit,
parse the numeric portion, map the suffix to a multiplier, `checked_mul`,
and narrow to `usize`. -/
def parse_size_on (usizeMax : Nat) (s : String) : Except RddError Nat :=
  let cs := trimChars s.data
  if cs = [] then .error (.Config .emptySize)
  else
    let lower := cs.map toLowerAscii
    let numStr := lower.takeWhile isAsciiDigit
    let sfx := lower.dropWhile isAsciiDigit
    match parseU64 numStr with
    | none => .error (.Config .invalidNumeric)
    | some num =>
      match multiplierOf sfx with
      | none => .error (.Config .unknownSuffix)
      | some mult =>
        if num * mult < U64_MOD then
          if num * mult ≤ usizeMax then .ok (num * mult)
          else .error (.Config .tooLargeForArch)
        else .error (.Config .overflow)

/-- The function `parse_size` on the 64-bit platform. -/
def parse_size (s : String) : Except RddError Nat :=
  parse_size_on USIZE_MAX64 s

/-- From src/cli.rs: the raw `copy` subcommand arguments (strings and
machine integers as produced by clap). -/
structure CopyArgs where
  input : String
  output : String
  bs : String
  count : Nat
  skip : Nat
  seek : Nat
  verify : Option HashAlgorithm
  progress : Bool
  threads : Nat
  direct : Bool

/-- From src/config.rs: the validated configuration for a copy operation. -/
structure CopyConfig where
  input_file : String
  output_file : String
  block_size : Nat
  count : Nat
  skip : Nat
  seek : Nat
  show_progress : Bool
  verification_algo : Option HashAlgorithm
  threads : Nat
  use_direct_io : Bool

/-- src/config.rs `CopyConfig::from_args`: parse the block size, reject a
zero block size, and package the remaining arguments unchanged. -/
def CopyConfig.from_args (usizeMax : Nat) (args : CopyArgs) :
    Except RddError CopyConfig :=
  match parse_size_on usizeMax args.bs with
  | .error e => .error e
  | .ok block_size =>
    if block_size = 0 then .error (.Config .zeroBlockSize)
    else
      .ok { input_file := args.input
            output_file := args.output
            block_size := block_size
            count := args.count
            skip := args.skip
            seek := args.seek
            show_progress := args.progress
            verification_algo := args.verify
            threads := args.threads
            use_direct_io := args.direct }

/-- Failure injection for the two fallible calls inside the copy loop: the
(0-based) iteration index at which `read` (resp. `write_all`) returns an
I/O error, if any. -/
structure LoopEnv where
  readFailAt : Option Nat
  writeFailAt : Option Nat
deriving DecidableEq

/-- The environment in which no injected loop failure occurs. -/
def noFail : LoopEnv := { readFailAt := none, writeFailAt := none }

/-- How the copy loop of src/core/copy.rs:61-81 ended. -/
inductive LoopExit
  | countReached
  | eofReached
  | readError
  | writeError
deriving DecidableEq

/-- Observable outcome of the copy loop: how it exited, the final
`blocks_copied` counter, the successive byte chunks passed to `write_all`,
and the final input-cursor position. -/
structure LoopResult where
  exit : LoopExit
  blocks : Nat
  chunks : List (List Nat)
  finalPos : Nat
deriving DecidableEq

/-- The main copy loop of `run_singlethreaded_copy` (src/core/copy.rs:61-81).
Each iteration: stop if `count > 0` and `blocks_copied >= count`; `read` up
to `block_size` bytes at the input cursor into the reused `buffer` (a read
of `n` bytes overwrites only the first `n` bytes, the stale remainder stays);
stop on a zero-byte read; `write_all(&buffer[..bytes_read])`; increment the
block counter. `lenv` injects `read`/`write` errors by iteration index. -/
def copyLoop (lenv : LoopEnv) (bs count : Nat) (input : List Nat)
    (pos blocks idx : Nat) (buffer : List Nat) : LoopResult :=
  if 0 < count ∧ count ≤ blocks then
    { exit := .countReached, blocks := blocks, chunks := [], finalPos := pos }
  else if lenv.readFailAt = some idx then
    { exit := .readError, blocks := blocks, chunks := [], finalPos := pos }
  else if min bs (input.length - pos) = 0 then
    { exit := .eofReached, blocks := blocks, chunks := [], finalPos := pos }
  else if lenv.writeFailAt = some idx then
    { exit := .writeError, blocks := blocks, chunks := [],
      finalPos := pos + min bs (input.length - pos) }
  else
    let bytesRead := min bs (input.length - pos)
    let newBuffer := (input.drop pos).take bytesRead ++ buffer.drop bytesRead
    let rest := copyLoop lenv bs count input (pos + bytesRead) (blocks + 1)
      (idx + 1) newBuffer
    { exit := rest.exit
      blocks := rest.blocks
      chunks := newBuffer.take bytesRead :: rest.chunks
      finalPos := rest.finalPos }
termination_by input.length - pos
decreasing_by simp_wf; omega

/-- Observable I/O effects of one copy job, in program order. Only calls
that actually succeeded appear (a failed open or seek changes nothing). -/
inductive IOEvent
  | openedInput
  | truncatedOutput
  | seekedInput (pos : Nat)
  | seekedOutput (pos : Nat)
  | readBytes (n : Nat)
  | wrote (bytes : List Nat)
  | flushed
deriving DecidableEq

/-- The read/write events of the completed loop iterations. -/
def loopEvents (chunks : List (List Nat)) : List IOEvent :=
  (chunks.map (fun c => [IOEvent.readBytes c.length, IOEvent.wrote c])).flatten

/-- Environment of one `run_singlethreaded_copy` call: the input file (or
its absence), the output file's contents before the job (or its absence),
and one failure switch per fallible I/O call. -/
structure Env where
  inputExists : Bool
  input : List Nat
  prevOutput : Option (List Nat)
  outputOpenOk : Bool
  inputSeekOk : Bool
  outputSeekOk : Bool
  readFailAt : Option Nat
  writeFailAt : Option Nat
  flushOk : Bool

/-- Result of one job: the returned `RddResult<()>`, the trace of performed
I/O effects, and the output file's contents afterwards (`none` if it still
does not exist). -/
structure RunOut where
  result : Except RddError Unit
  trace : List IOEvent
  finalOutput : Option (List Nat)

/-- src/core/copy.rs `run_singlethreaded_copy`: open the input read-only;
open the output with write/create/truncate; if `skip > 0` seek the input to
`skip * block_size` (`u64` arithmetic, so reduced `% 2 ^ 64`); if `seek > 0`
seek the output to `seek * block_size` likewise; run the copy loop with a
zero-initialised buffer of `block_size` bytes; `sync_all` the output.
A seek past the end of the output followed by writes leaves a zero-filled
gap; if nothing is ever written the output stays empty. -/
def run_singlethreaded_copy (config : CopyConfig) (env : Env) : RunOut :=
  if env.inputExists = false then
    { result := .error (.IoError .openInput), trace := [],
      finalOutput := env.prevOutput }
  else if env.outputOpenOk = false then
    { result := .error (.IoError .openOutput), trace := [.openedInput],
      finalOutput := env.prevOutput }
  else if 0 < config.skip ∧ env.inputSeekOk = false then
    { result := .error (.IoError .seekInput),
      trace := [.openedInput, .truncatedOutput], finalOutput := some [] }
  else if 0 < config.seek ∧ env.outputSeekOk = false then
    { result := .error (.IoError .seekOutput),
      trace := [.openedInput, .truncatedOutput]
        ++ (if 0 < config.skip then
              [IOEvent.seekedInput ((config.skip * config.block_size) % U64_MOD)]
            else []),
      finalOutput := some [] }
  else
    let inPos := if 0 < config.skip then
      (config.skip * config.block_size) % U64_MOD else 0
    let outPos := if 0 < config.seek then
      (config.seek * config.block_size) % U64_MOD else 0
    let preTrace := [IOEvent.openedInput, IOEvent.truncatedOutput]
      ++ (if 0 < config.skip then
            [IOEvent.seekedInput ((config.skip * config.block_size) % U64_MOD)]
          else [])
      ++ (if 0 < config.seek then
            [IOEvent.seekedOutput ((config.seek * config.block_size) % U64_MOD)]
          else [])
    let r := copyLoop { readFailAt := env.readFailAt, writeFailAt := env.writeFailAt }
      config.block_size config.count env.input inPos 0 0
      (List.replicate config.block_size 0)
    let written := r.chunks.flatten
    let outFile : List Nat :=
      if written.isEmpty then [] else List.replicate outPos 0 ++ written
    match r.exit with
    | .readError =>
      { result := .error (.IoError .readOp),
        trace := preTrace ++ loopEvents r.chunks, finalOutput := some outFile }
    | .writeError =>
      { result := .error (.IoError .writeOp),
        trace := preTrace ++ loopEvents r.chunks, finalOutput := some outFile }
    | _ =>
      if env.flushOk = false then
        { result := .error (.IoError .flushOp),
          trace := preTrace ++ loopEvents r.chunks, finalOutput := some outFile }
      else
        { result := .ok (),
          trace := preTrace ++ loopEvents r.chunks ++ [.flushed],
          finalOutput := some outFile }

/-- src/main.rs `run` (for the `copy` subcommand, after clap parsing):
build the validated `CopyConfig`; on a configuration error return it before
any I/O; otherwise run the copy. -/
def run (usizeMax : Nat) (args : CopyArgs) (env : Env) : RunOut :=
  match CopyConfig.from_args usizeMax args with
  | .error e => { result := .error e, trace := [], finalOutput := env.prevOutput }
  | .ok config => run_singlethreaded_copy config env

/-- An environment in which every I/O call of the job succeeds. -/
def EnvAllOk (env : Env) : Prop :=
  env.inputExists = true ∧ env.outputOpenOk = true ∧ env.inputSeekOk = true ∧
  env.outputSeekOk = true ∧ env.readFailAt = none ∧ env.writeFailAt = none ∧
  env.flushOk = true

/-- The output-file contents a fully successful job produces, as a function
of the configuration and the input contents alone. -/
def jobOutput (config : CopyConfig) (input : List Nat) : List Nat :=
  let inPos := if 0 < config.skip then
    (config.skip * config.block_size) % U64_MOD else 0
  let outPos := if 0 < config.seek then
    (config.seek * config.block_size) % U64_MOD else 0
  let r := copyLoop noFail config.block_size config.count input inPos 0 0
    (List.replicate config.block_size 0)
  let written := r.chunks.flatten
  if written.isEmpty then [] else List.replicate outPos 0 ++ written

/-- Unfolded form of `noFail` for rewriting. -/
lemma noFail_readFailAt : noFail.readFailAt = none := rfl

/-- Unfolded form of `noFail` for rewriting. -/
lemma noFail_writeFailAt : noFail.writeFailAt = none := rfl

/-- Core content invariant of the copy loop, by strong induction on the
remaining input: without injected failures, the concatenation of all chunks
handed to `write_all` is exactly the slice of the input between the initial
and the final cursor position — independent of the initial buffer contents —
and the cursor only moves forward, never past the end of the input. -/
lemma copyLoop_content_aux (bs count : Nat) (input : List Nat) :
    ∀ n pos blocks idx buffer, input.length - pos ≤ n →
      (copyLoop noFail bs count input pos blocks idx buffer).chunks.flatten
          = (input.drop pos).take
            ((copyLoop noFail bs count input pos blocks idx buffer).finalPos - pos)
        ∧ pos ≤ (copyLoop noFail bs count input pos blocks idx buffer).finalPos
        ∧ (copyLoop noFail bs count input pos blocks idx buffer).finalPos
            ≤ max pos input.length := by
  intro n
  induction n with
  | zero =>
    intro pos blocks idx buffer hn
    rw [copyLoop.eq_def]
    split_ifs with h1 h2 h3 h4
    · exact ⟨by simp, Nat.le_refl _, Nat.le_max_left _ _⟩
    · exact absurd h2 (by simp [noFail])
    · exact ⟨by simp, Nat.le_refl _, Nat.le_max_left _ _⟩
    · exact absurd h4 (by simp [noFail])
    · exact absurd (by omega : min bs (input.length - pos) = 0) h3
  | succ n ih =>
    intro pos blocks idx buffer hn
    rw [copyLoop.eq_def]
    split_ifs with h1 h2 h3 h4
    · exact ⟨by simp, Nat.le_refl _, Nat.le_max_left _ _⟩
    · exact absurd h2 (by simp [noFail])
    · exact ⟨by simp, Nat.le_refl _, Nat.le_max_left _ _⟩
    · exact absurd h4 (by simp [noFail])
    · dsimp only
      have hm0 : 0 < min bs (input.length - pos) := Nat.pos_of_ne_zero h3
      have hmle : min bs (input.length - pos) ≤ input.length - pos :=
        Nat.min_le_right _ _
      obtain ⟨ihA, ihB, ihC⟩ := ih (pos + min bs (input.length - pos)) (blocks + 1)
        (idx + 1)
        ((input.drop pos).take (min bs (input.length - pos))
          ++ buffer.drop (min bs (input.length - pos))) (by omega)
      have hlen : ((input.drop pos).take (min bs (input.length - pos))).length
          = min bs (input.length - pos) := by
        simp only [List.length_take, List.length_drop]; omega
      refine ⟨?_, by omega, by omega⟩
      rw [List.flatten_cons, List.take_left' hlen, ihA,
        ← List.drop_drop (min bs (input.length - pos)) pos input]
      have hsplit :
          (copyLoop noFail bs count input (pos + min bs (input.length - pos))
              (blocks + 1) (idx + 1)
              ((input.drop pos).take (min bs (input.length - pos))
                ++ buffer.drop (min bs (input.length - pos)))).finalPos - pos
            = min bs (input.length - pos)
              + ((copyLoop noFail bs count input (pos + min bs (input.length - pos))
                  (blocks + 1) (idx + 1)
                  ((input.drop pos).take (min bs (input.length - pos))
                    ++ buffer.drop (min bs (input.length - pos)))).finalPos
                - (pos + min bs (input.length - pos))) := by omega
      rw [hsplit, List.take_add]

/-- Exit characterisation of the copy loop, by strong induction: without
injected failures it always terminates in `countReached` or `eofReached`;
`countReached` happens only with a positive `count` and (starting from a
counter below `count`) with exactly `count` blocks copied; with `count = 0`
the loop only stops at the zero-byte read; and at an `eofReached` exit the
final read at the final cursor position returned zero bytes. -/
lemma copyLoop_exit_aux (bs count : Nat) (input : List Nat) :
    ∀ n pos blocks idx buffer, input.length - pos ≤ n →
      ((copyLoop noFail bs count input pos blocks idx buffer).exit
          = LoopExit.countReached
        ∨ (copyLoop noFail bs count input pos blocks idx buffer).exit
          = LoopExit.eofReached)
      ∧ ((copyLoop noFail bs count input pos blocks idx buffer).exit
            = LoopExit.countReached →
          0 < count ∧ (blocks ≤ count →
            (copyLoop noFail bs count input pos blocks idx buffer).blocks = count))
      ∧ (count = 0 →
          (copyLoop noFail bs count input pos blocks idx buffer).exit
            = LoopExit.eofReached)
      ∧ ((copyLoop noFail bs count input pos blocks idx buffer).exit
            = LoopExit.eofReached →
          min bs (input.length
            - (copyLoop noFail bs count input pos blocks idx buffer).finalPos) = 0) := by
  intro n
  induction n with
  | zero =>
    intro pos blocks idx buffer hn
    rw [copyLoop.eq_def]
    split_ifs with h1 h2 h3 h4
    · refine ⟨Or.inl rfl, fun _ => ⟨h1.1, fun hb => Nat.le_antisymm hb h1.2⟩,
        fun hc => by omega, fun hd => by exact absurd hd (by simp)⟩
    · exact absurd h2 (by simp [noFail])
    · exact ⟨Or.inr rfl, fun hc => by exact absurd hc (by simp), fun _ => rfl,
        fun _ => h3⟩
    · exact absurd h4 (by simp [noFail])
    · exact absurd (by omega : min bs (input.length - pos) = 0) h3
  | succ n ih =>
    intro pos blocks idx buffer hn
    rw [copyLoop.eq_def]
    split_ifs with h1 h2 h3 h4
    · refine ⟨Or.inl rfl, fun _ => ⟨h1.1, fun hb => Nat.le_antisymm hb h1.2⟩,
        fun hc => by omega, fun hd => by exact absurd hd (by simp)⟩
    · exact absurd h2 (by simp [noFail])
    · exact ⟨Or.inr rfl, fun hc => by exact absurd hc (by simp), fun _ => rfl,
        fun _ => h3⟩
    · exact absurd h4 (by simp [noFail])
    · dsimp only
      have hm0 : 0 < min bs (input.length - pos) := Nat.pos_of_ne_zero h3
      have hmle : min bs (input.length - pos) ≤ input.length - pos :=
        Nat.min_le_right _ _
      obtain ⟨ihA, ihB, ihC, ihD⟩ := ih (pos + min bs (input.length - pos))
        (blocks + 1) (idx + 1)
        ((input.drop pos).take (min bs (input.length - pos))
          ++ buffer.drop (min bs (input.length - pos))) (by omega)
      refine ⟨ihA, fun hcr => ?_, ihC, ihD⟩
      obtain ⟨hc0, hbl⟩ := ihB hcr
      exact ⟨hc0, fun hb => hbl (by omega)⟩

/-- Input consumption, by strong induction: without injected failures, if
the remaining input fits inside the remaining block allowance, the loop
reads the input to its very end. -/
lemma copyLoop_consume_aux (bs count : Nat) (input : List Nat) :
    ∀ n pos blocks idx buffer, input.length - pos ≤ n → pos ≤ input.length →
      input.length - pos ≤ (count - blocks) * bs →
      (copyLoop noFail bs count input pos blocks idx buffer).finalPos
        = input.length := by
  intro n
  induction n with
  | zero =>
    intro pos blocks idx buffer hn hple hprod
    rw [copyLoop.eq_def]
    split_ifs with h1 h2 h3 h4
    · dsimp only; omega
    · exact absurd h2 (by simp [noFail])
    · dsimp only; omega
    · exact absurd h4 (by simp [noFail])
    · exact absurd (by omega : min bs (input.length - pos) = 0) h3
  | succ n ih =>
    intro pos blocks idx buffer hn hple hprod
    rw [copyLoop.eq_def]
    split_ifs with h1 h2 h3 h4
    · have hq : count - blocks = 0 := by omega
      rw [hq, Nat.zero_mul] at hprod
      dsimp only; omega
    · exact absurd h2 (by simp [noFail])
    · by_cases hbs : bs = 0
      · subst hbs
        rw [Nat.mul_zero] at hprod
        dsimp only; omega
      · dsimp only; omega
    · exact absurd h4 (by simp [noFail])
    · dsimp only
      have hm0 : 0 < min bs (input.length - pos) := Nat.pos_of_ne_zero h3
      have hmle : min bs (input.length - pos) ≤ input.length - pos :=
        Nat.min_le_right _ _
      have hstep : input.length - (pos + min bs (input.length - pos))
          ≤ (count - (blocks + 1)) * bs := by
        by_cases hcase : input.length - pos ≤ bs
        · have hz : input.length - (pos + min bs (input.length - pos)) = 0 := by
            omega
          rw [hz]
          exact Nat.zero_le _
        · have hmbs : min bs (input.length - pos) = bs := by omega
          have hq1 : 1 ≤ count - blocks := by
            by_contra hq
            have hq0 : count - blocks = 0 := by omega
            rw [hq0, Nat.zero_mul] at hprod
            omega
          have heq : count - (blocks + 1) = (count - blocks) - 1 := by omega
          rw [heq, Nat.sub_one_mul]
          calc input.length - (pos + min bs (input.length - pos))
              = (input.length - pos) - bs := by omega
            _ ≤ (count - blocks) * bs - bs := Nat.sub_le_sub_right hprod bs
      exact ih (pos + min bs (input.length - pos)) (blocks + 1) (idx + 1)
        ((input.drop pos).take (min bs (input.length - pos))
          ++ buffer.drop (min bs (input.length - pos))) (by omega) (by omega) hstep

/-- The bytes handed to `write_all` are exactly the slice of the input file
between the initial and final cursor positions, for any initial buffer. -/
lemma copyLoop_flatten_eq (bs count : Nat) (input : List Nat)
    (pos blocks idx : Nat) (buffer : List Nat) :
    (copyLoop noFail bs count input pos blocks idx buffer).chunks.flatten
      = (input.drop pos).take
        ((copyLoop noFail bs count input pos blocks idx buffer).finalPos - pos) :=
  (copyLoop_content_aux bs count input (input.length - pos) pos blocks idx buffer
    (Nat.le_refl _)).1

/-- The input cursor never moves backwards. -/
lemma copyLoop_pos_le (bs count : Nat) (input : List Nat)
    (pos blocks idx : Nat) (buffer : List Nat) :
    pos ≤ (copyLoop noFail bs count input pos blocks idx buffer).finalPos :=
  (copyLoop_content_aux bs count input (input.length - pos) pos blocks idx buffer
    (Nat.le_refl _)).2.1

/-- The input cursor never moves past the end of the input. -/
lemma copyLoop_pos_max (bs count : Nat) (input : List Nat)
    (pos blocks idx : Nat) (buffer : List Nat) :
    (copyLoop noFail bs count input pos blocks idx buffer).finalPos
      ≤ max pos input.length :=
  (copyLoop_content_aux bs count input (input.length - pos) pos blocks idx buffer
    (Nat.le_refl _)).2.2

/-- Total bytes written equal total bytes read (the cursor advance). -/
lemma copyLoop_flatten_length (bs count : Nat) (input : List Nat)
    (pos blocks idx : Nat) (buffer : List Nat) :
    (copyLoop noFail bs count input pos blocks idx buffer).chunks.flatten.length
      = (copyLoop noFail bs count input pos blocks idx buffer).finalPos - pos := by
  have hB := copyLoop_pos_le bs count input pos blocks idx buffer
  have hC := copyLoop_pos_max bs count input pos blocks idx buffer
  rw [copyLoop_flatten_eq, List.length_take, List.length_drop]
  omega

/-- Exit characterisation at the loop's real entry state (`blocks = 0`). -/
lemma copyLoop_exit_spec (bs count : Nat) (input : List Nat)
    (pos idx : Nat) (buffer : List Nat) :
    ((copyLoop noFail bs count input pos 0 idx buffer).exit
        = LoopExit.countReached
      ∨ (copyLoop noFail bs count input pos 0 idx buffer).exit
        = LoopExit.eofReached)
    ∧ ((copyLoop noFail bs count input pos 0 idx buffer).exit
          = LoopExit.countReached →
        0 < count ∧ (copyLoop noFail bs count input pos 0 idx buffer).blocks = count)
    ∧ (count = 0 →
        (copyLoop noFail bs count input pos 0 idx buffer).exit
          = LoopExit.eofReached)
    ∧ ((copyLoop noFail bs count input pos 0 idx buffer).exit
          = LoopExit.eofReached →
        min bs (input.length
          - (copyLoop noFail bs count input pos 0 idx buffer).finalPos) = 0) := by
  obtain ⟨hA, hB, hC, hD⟩ := copyLoop_exit_aux bs count input
    (input.length - pos) pos 0 idx buffer (Nat.le_refl _)
  exact ⟨hA, fun h => ⟨(hB h).1, (hB h).2 (Nat.zero_le _)⟩, hC, hD⟩

/-- Input consumption at the loop's real entry state. -/
lemma copyLoop_consume (bs count : Nat) (input : List Nat)
    (pos idx : Nat) (buffer : List Nat) (hple : pos ≤ input.length)
    (hprod : input.length - pos ≤ count * bs) :
    (copyLoop noFail bs count input pos 0 idx buffer).finalPos = input.length :=
  copyLoop_consume_aux bs count input (input.length - pos) pos 0 idx buffer
    (Nat.le_refl _) hple (by simpa using hprod)

/-- Behaviour of a job in an environment where every I/O call succeeds:
the job returns `Ok(())`, the trace is open-input, truncate-output, the
optional seeks, the loop's reads/writes, and a final flush, and the output
file afterwards holds exactly `jobOutput`. -/
lemma run_allOk_spec (config : CopyConfig) (env : Env) (h : EnvAllOk env) :
    run_singlethreaded_copy config env =
      { result := .ok ()
        trace := [IOEvent.openedInput, IOEvent.truncatedOutput]
          ++ (if 0 < config.skip then
                [IOEvent.seekedInput ((config.skip * config.block_size) % U64_MOD)]
              else [])
          ++ (if 0 < config.seek then
                [IOEvent.seekedOutput ((config.seek * config.block_size) % U64_MOD)]
              else [])
          ++ loopEvents (copyLoop noFail config.block_size config.count env.input
               (if 0 < config.skip then
                  (config.skip * config.block_size) % U64_MOD else 0)
               0 0 (List.replicate config.block_size 0)).chunks
          ++ [IOEvent.flushed]
        finalOutput := some (jobOutput config env.input) } := by
  obtain ⟨h1, h2, h3, h4, h5, h6, h7⟩ := h
  rw [run_singlethreaded_copy]
  have hnf : ({ readFailAt := none, writeFailAt := none } : LoopEnv) = noFail := rfl
  simp only [h1, h2, h3, h4, h5, h6, h7, hnf, jobOutput, Bool.true_eq_false,
    and_false, if_false]
  have hexit := (copyLoop_exit_spec config.block_size config.count env.input
    (if 0 < config.skip then (config.skip * config.block_size) % U64_MOD else 0)
    0 (List.replicate config.block_size 0)).1
  rcases hexit with he | he <;> simp only [he] <;> rfl

/-- An ASCII digit is not whitespace. -/
lemma isAsciiDigit_not_ws (c : Char) (h : isAsciiDigit c = true) :
    isWhitespaceChar c = false := by
  simp [isAsciiDigit] at h
  simp [isWhitespaceChar]
  omega

/-- Lowercasing leaves ASCII digits unchanged. -/
lemma toLowerAscii_digit (c : Char) (h : isAsciiDigit c = true) :
    toLowerAscii c = c := by
  unfold toLowerAscii
  split <;> first | rfl | (exfalso; revert h; decide)

/-- Lowercasing preserves digit-ness (it maps letters to letters). -/
lemma isAsciiDigit_toLower (c : Char) :
    isAsciiDigit (toLowerAscii c) = isAsciiDigit c := by
  unfold toLowerAscii
  split <;> rfl

/-- Dropping while a predicate holds is the identity when it fails on every element. -/
lemma dropWhile_all_false {α : Type} (p : α → Bool) (l : List α)
    (h : ∀ c ∈ l, p c = false) : l.dropWhile p = l := by
  cases l with
  | nil => rfl
  | cons a l => simp [List.dropWhile, h a (by simp)]

/-- Taking while a predicate holds gives nothing when it fails on every element. -/
lemma takeWhile_all_false {α : Type} (p : α → Bool) (l : List α)
    (h : ∀ c ∈ l, p c = false) : l.takeWhile p = [] := by
  cases l with
  | nil => rfl
  | cons a l => simp [List.takeWhile, h a (by simp)]

/-- Taking while a predicate holds passes over a block of satisfying elements. -/
lemma takeWhile_append_all {α : Type} (p : α → Bool) (xs ys : List α)
    (hx : ∀ c ∈ xs, p c = true) :
    (xs ++ ys).takeWhile p = xs ++ ys.takeWhile p := by
  induction xs with
  | nil => simp
  | cons a l ih =>
    simp [List.takeWhile, hx a (by simp),
      ih (fun c hc => hx c (by simp [hc]))]

/-- Dropping while a predicate holds removes a block of satisfying elements. -/
lemma dropWhile_append_all {α : Type} (p : α → Bool) (xs ys : List α)
    (hx : ∀ c ∈ xs, p c = true) :
    (xs ++ ys).dropWhile p = ys.dropWhile p := by
  induction xs with
  | nil => simp
  | cons a l ih =>
    simp [List.dropWhile, hx a (by simp),
      ih (fun c hc => hx c (by simp [hc]))]

/-- Trimming a string with no whitespace at all is the identity. -/
lemma trimChars_eq_self (cs : List Char)
    (h : ∀ c ∈ cs, isWhitespaceChar c = false) : trimChars cs = cs := by
  unfold trimChars
  rw [dropWhile_all_false _ _ h,
    dropWhile_all_false _ _ (fun c hc => h c (List.mem_reverse.mp hc)),
    List.reverse_reverse]

/-- Lowercasing an all-digit string is the identity. -/
lemma map_toLower_digits (cs : List Char)
    (h : ∀ c ∈ cs, isAsciiDigit c = true) : cs.map toLowerAscii = cs := by
  induction cs with
  | nil => rfl
  | cons a l ih =>
    simp [toLowerAscii_digit a (h a (by simp)),
      ih (fun c hc => h c (by simp [hc]))]

/-- The suffix multipliers are all positive. -/
lemma multiplierOf_pos (l : List Char) (m : Nat)
    (h : multiplierOf l = some m) : 0 < m := by
  unfold multiplierOf at h
  split_ifs at h <;> simp_all <;> omega

/-- Inversion for the modelled `str::parse::<u64>`. -/
lemma parseU64_some (cs : List Char) (num : Nat) (h : parseU64 cs = some num) :
    num = digitsToNat cs ∧ cs ≠ [] ∧ digitsToNat cs < U64_MOD := by
  unfold parseU64 at h
  split_ifs at h with hc
  exact ⟨(Option.some.inj h).symm, hc.1, hc.2.2⟩

/-- C5: for every valid size string `<digits><suffix>` — digits a nonempty
ASCII-digit string whose value fits in `u64`, suffix any ASCII-case variant
of one of "", k, kb, m, mb, g, gb, t, tb — whose value times the binary
multiplier (k = 1024, m = 1024², g = 1024³, t = 1024⁴) fits in `u64` and in
the platform's pointer-sized integer, `parse_size` returns exactly
digits × multiplier. -/
theorem C5_parse_size_valid (usizeMax : Nat) (digits sfx : List Char)
    (mult : Nat)
    (hne : digits ≠ [])
    (hdig : ∀ c ∈ digits, isAsciiDigit c = true)
    (hsfx : ∀ c ∈ sfx, isAsciiDigit c = false ∧ isWhitespaceChar c = false)
    (hmul : multiplierOf (sfx.map toLowerAscii) = some mult)
    (hnum : digitsToNat digits < U64_MOD)
    (hprod : digitsToNat digits * mult < U64_MOD)
    (hmax : digitsToNat digits * mult ≤ usizeMax) :
    parse_size_on usizeMax (String.mk (digits ++ sfx))
      = .ok (digitsToNat digits * mult) := by
  have hdata : (String.mk (digits ++ sfx)).data = digits ++ sfx := rfl
  unfold parse_size_on
  rw [hdata]
  dsimp only
  have htrim : trimChars (digits ++ sfx) = digits ++ sfx := by
    apply trimChars_eq_self
    intro c hc
    rcases List.mem_append.mp hc with h | h
    · exact isAsciiDigit_not_ws c (hdig c h)
    · exact (hsfx c h).2
  rw [htrim]
  have hnonempty : ¬(digits ++ sfx = []) := by
    intro h0
    exact hne (List.append_eq_nil.mp h0).1
  rw [if_neg hnonempty]
  have hlowsfx : ∀ c ∈ sfx.map toLowerAscii, isAsciiDigit c = false := by
    intro c hc
    obtain ⟨a, ha, rfl⟩ := List.mem_map.mp hc
    rw [isAsciiDigit_toLower]
    exact (hsfx a ha).1
  rw [List.map_append, map_toLower_digits digits hdig,
    takeWhile_append_all _ _ _ hdig, dropWhile_append_all _ _ _ hdig,
    takeWhile_all_false _ _ hlowsfx, dropWhile_all_false _ _ hlowsfx,
    List.append_nil]
  have hp64 : parseU64 digits = some (digitsToNat digits) := by
    unfold parseU64
    rw [if_pos ⟨hne, by rw [List.all_eq_true]; exact hdig, hnum⟩]
  rw [hp64, hmul]
  dsimp only
  rw [if_pos hprod, if_pos hmax]

/-- Witness for C5: the spec's concrete scenario — "2G" parses to
2,147,483,648 on the 64-bit platform. -/
theorem C5_parse_size_valid_witness :
    parse_size "2G" = .ok 2147483648 := by
  have h := C5_parse_size_valid USIZE_MAX64 ['2'] ['G'] (1024 * 1024 * 1024)
    (by decide) (by decide) (by decide) (by decide) (by decide) (by decide)
    (by decide)
  have hs : String.mk (['2'] ++ ['G']) = "2G" := by decide
  have hv : digitsToNat ['2'] * (1024 * 1024 * 1024) = 2147483648 := by decide
  rw [hs, hv] at h
  exact h

/-- C4: if the supplied block-size string parses to zero, `run` returns the
zero-block-size Configuration error with an empty I/O trace — no file is
opened and the output file keeps its previous state (neither created nor
truncated). -/
theorem C4_zero_blocksize (usizeMax : Nat) (args : CopyArgs) (env : Env)
    (h : parse_size_on usizeMax args.bs = .ok 0) :
    run usizeMax args env =
      { result := .error (.Config .zeroBlockSize), trace := [],
        finalOutput := env.prevOutput } := by
  rw [run, CopyConfig.from_args, h]
  rfl

/-- Witness for C4: block size "0" on the 64-bit platform, concrete
environment. -/
theorem C4_zero_blocksize_witness :
    parse_size_on USIZE_MAX64
        ({ input := "a", output := "b", bs := "0", count := 0, skip := 0,
           seek := 0, verify := none, progress := true, threads := 1,
           direct := false } : CopyArgs).bs = .ok 0
    ∧ run USIZE_MAX64
        { input := "a", output := "b", bs := "0", count := 0, skip := 0,
          seek := 0, verify := none, progress := true, threads := 1,
          direct := false }
        { inputExists := true, input := [1, 2], prevOutput := some [5],
          outputOpenOk := true, inputSeekOk := true, outputSeekOk := true,
          readFailAt := none, writeFailAt := none, flushOk := true } =
      { result := .error (.Config .zeroBlockSize), trace := [],
        finalOutput := some [5] } := by
  refine ⟨by rfl, ?_⟩
  exact C4_zero_blocksize USIZE_MAX64 _ _ (by rfl)

/-- Counterexample for C6: the all-digit string "18446744073709551616"
(2^64, so digits × multiplier with the empty suffix's multiplier 1 exceeds
the 64-bit unsigned range) is reported with the invalid-numeric-value
Configuration cause, not the distinct multiplication-overflow cause the
claim assigns to it: `str::parse::<u64>` itself fails first. -/
theorem C6_counterexample :
    parse_size "18446744073709551616" = .error (.Config .invalidNumeric)
    ∧ ("18446744073709551616".data).all isAsciiDigit = true
    ∧ digitsToNat ("18446744073709551616".data) * 1 ≥ U64_MOD
    ∧ ConfigCause.invalidNumeric ≠ ConfigCause.overflow := by
  refine ⟨by rfl, by decide, by decide, by decide⟩

/-- C6 (amended): for every input string, `parse_size` either succeeds — and
returns zero only when the numeric portion itself denotes zero, never
silently for a malformed string — or returns a Configuration-class error
(never any other error class, and being a total function it cannot panic)
whose cause is one of the five distinct causes: empty string, invalid
numeric portion (non-digit, missing, or exceeding the 64-bit unsigned
range), unknown suffix, multiplication overflow of a u64-sized digit value
by its multiplier, or a result exceeding the platform's addressable size. -/
theorem C6_config_error_classes (usizeMax : Nat) (s : String) :
    (∃ v, parse_size_on usizeMax s = .ok v
      ∧ (v = 0 →
          digitsToNat (((trimChars s.data).map toLowerAscii).takeWhile
            isAsciiDigit) = 0))
    ∨ (∃ c, parse_size_on usizeMax s = .error (.Config c)
      ∧ (c = ConfigCause.emptySize ∨ c = ConfigCause.invalidNumeric
        ∨ c = ConfigCause.unknownSuffix ∨ c = ConfigCause.overflow
        ∨ c = ConfigCause.tooLargeForArch)) := by
  rw [parse_size_on]
  dsimp only
  split_ifs with h0
  · exact Or.inr ⟨_, rfl, Or.inl rfl⟩
  · cases hp : parseU64 (((trimChars s.data).map toLowerAscii).takeWhile
        isAsciiDigit) with
    | none =>
      exact Or.inr ⟨_, rfl, Or.inr (Or.inl rfl)⟩
    | some num =>
      cases hm : multiplierOf (((trimChars s.data).map toLowerAscii).dropWhile
          isAsciiDigit) with
      | none =>
        exact Or.inr ⟨_, rfl, Or.inr (Or.inr (Or.inl rfl))⟩
      | some mult =>
        dsimp only
        split_ifs with hlt hle
        · refine Or.inl ⟨num * mult, rfl, fun hv => ?_⟩
          obtain ⟨hnum, _, _⟩ := parseU64_some _ _ hp
          have hm0 := multiplierOf_pos _ _ hm
          have : num = 0 := by
            rcases Nat.mul_eq_zero.mp hv with h | h
            · exact h
            · omega
          omega
        · exact Or.inr ⟨_, rfl, Or.inr (Or.inr (Or.inr (Or.inr rfl)))⟩
        · exact Or.inr ⟨_, rfl, Or.inr (Or.inr (Or.inr (Or.inl rfl)))⟩

/-- Witness for C6 (amended): instantiated at the well-formed string "0"
(which parses to zero because its digits denote zero) on the 64-bit
platform. -/
theorem C6_config_error_classes_witness :
    (∃ v, parse_size_on USIZE_MAX64 "0" = .ok v
      ∧ (v = 0 →
          digitsToNat (((trimChars "0".data).map toLowerAscii).takeWhile
            isAsciiDigit) = 0))
    ∨ (∃ c, parse_size_on USIZE_MAX64 "0" = .error (.Config c)
      ∧ (c = ConfigCause.emptySize ∨ c = ConfigCause.invalidNumeric
        ∨ c = ConfigCause.unknownSuffix ∨ c = ConfigCause.overflow
        ∨ c = ConfigCause.tooLargeForArch)) :=
  C6_config_error_classes USIZE_MAX64 "0"

/-- A sample validated configuration used to instantiate theorems. -/
def cfgA : CopyConfig :=
  { input_file := "in.bin", output_file := "out.bin", block_size := 2,
    count := 3, skip := 0, seek := 0, show_progress := true,
    verification_algo := none, threads := 1, use_direct_io := false }

/-- A sample all-success environment used to instantiate theorems. -/
def envA : Env :=
  { inputExists := true, input := [1, 2, 3, 4, 5], prevOutput := some [9],
    outputOpenOk := true, inputSeekOk := true, outputSeekOk := true,
    readFailAt := none, writeFailAt := none, flushOk := true }

/-- The sample environment `envA` satisfies every success switch. -/
lemma envA_allOk : EnvAllOk envA :=
  ⟨rfl, rfl, rfl, rfl, rfl, rfl, rfl⟩

/-- C1: each iteration of the copy loop writes exactly the bytes-read-long
prefix of the (reused) buffer, never the whole buffer: the flattened output
of the loop is exactly the slice of the input between the initial and final
cursor — independent of the (stale) initial buffer contents — the total
bytes written equal the total bytes read, and for an input whose remaining
length is below `count * block_size` the loop consumes the input to its end,
so the written length equals the bytes actually read with no trailing stale
buffer content. -/
theorem C1_writes_exactly_bytes_read (bs count : Nat) (input : List Nat)
    (pos : Nat) (buffer : List Nat) (hbuf : buffer.length = bs) :
    (copyLoop noFail bs count input pos 0 0 buffer).chunks.flatten
        = (input.drop pos).take
          ((copyLoop noFail bs count input pos 0 0 buffer).finalPos - pos)
    ∧ (copyLoop noFail bs count input pos 0 0 buffer).chunks.flatten.length
        = (copyLoop noFail bs count input pos 0 0 buffer).finalPos - pos
    ∧ (0 < count → pos ≤ input.length →
        input.length - pos < count * bs →
        (copyLoop noFail bs count input pos 0 0 buffer).finalPos
            = input.length
          ∧ (copyLoop noFail bs count input pos 0 0 buffer).chunks.flatten.length
            = input.length - pos) := by
  refine ⟨copyLoop_flatten_eq bs count input pos 0 0 buffer,
    copyLoop_flatten_length bs count input pos 0 0 buffer,
    fun _ hple hlt => ?_⟩
  have hfin := copyLoop_consume bs count input pos 0 buffer hple
    (Nat.le_of_lt hlt)
  refine ⟨hfin, ?_⟩
  rw [copyLoop_flatten_length bs count input pos 0 0 buffer, hfin]

/-- Witness for C1: block size 2, count 3, a 5-byte input (shorter than
count × block size) and a stale nonzero buffer. -/
theorem C1_writes_exactly_bytes_read_witness :
    ([9, 9] : List Nat).length = 2
    ∧ ((copyLoop noFail 2 3 [1, 2, 3, 4, 5] 0 0 0 [9, 9]).chunks.flatten
        = (([1, 2, 3, 4, 5] : List Nat).drop 0).take
          ((copyLoop noFail 2 3 [1, 2, 3, 4, 5] 0 0 0 [9, 9]).finalPos - 0)
      ∧ (copyLoop noFail 2 3 [1, 2, 3, 4, 5] 0 0 0 [9, 9]).chunks.flatten.length
        = (copyLoop noFail 2 3 [1, 2, 3, 4, 5] 0 0 0 [9, 9]).finalPos - 0
      ∧ (0 < 3 → 0 ≤ ([1, 2, 3, 4, 5] : List Nat).length →
          ([1, 2, 3, 4, 5] : List Nat).length - 0 < 3 * 2 →
          (copyLoop noFail 2 3 [1, 2, 3, 4, 5] 0 0 0 [9, 9]).finalPos
              = ([1, 2, 3, 4, 5] : List Nat).length
            ∧ (copyLoop noFail 2 3 [1, 2, 3, 4, 5] 0 0 0
                [9, 9]).chunks.flatten.length
              = ([1, 2, 3, 4, 5] : List Nat).length - 0)) :=
  ⟨rfl, C1_writes_exactly_bytes_read 2 3 [1, 2, 3, 4, 5] 0 [9, 9] rfl⟩

/-- C2: without I/O failures the copy loop always ends in one of exactly two
terminal states — `countReached` (only possible when `count > 0`, stopping
before reading another block, with exactly `count` blocks copied) or
`eofReached` (the read at the final cursor returned zero bytes); when
`count = 0` the loop runs until that zero-byte read; and the zero-byte-read
termination is reported as job success, not as an error: in an environment
where every I/O call succeeds the whole job returns `Ok(())`. -/
theorem C2_termination_conditions (bs count : Nat) (input : List Nat)
    (pos : Nat) (buffer : List Nat) :
    ((copyLoop noFail bs count input pos 0 0 buffer).exit
        = LoopExit.countReached
      ∨ (copyLoop noFail bs count input pos 0 0 buffer).exit
        = LoopExit.eofReached)
    ∧ ((copyLoop noFail bs count input pos 0 0 buffer).exit
          = LoopExit.countReached →
        0 < count
          ∧ (copyLoop noFail bs count input pos 0 0 buffer).blocks = count)
    ∧ (count = 0 →
        (copyLoop noFail bs count input pos 0 0 buffer).exit
          = LoopExit.eofReached)
    ∧ ((copyLoop noFail bs count input pos 0 0 buffer).exit
          = LoopExit.eofReached →
        min bs (input.length
          - (copyLoop noFail bs count input pos 0 0 buffer).finalPos) = 0)
    ∧ (∀ config env, EnvAllOk env →
        (run_singlethreaded_copy config env).result = Except.ok ()) := by
  obtain ⟨hA, hB, hC, hD⟩ := copyLoop_exit_spec bs count input pos 0 buffer
  exact ⟨hA, hB, hC, hD, fun config env he => by rw [run_allOk_spec config env he]⟩

/-- Witness for C2: block size 2, count 0 (copy until end of input), 3-byte
input; the inner run-level conjunct is itself universally applicable. -/
theorem C2_termination_conditions_witness :
    ((copyLoop noFail 2 0 [7, 8, 9] 0 0 0 [0, 0]).exit
        = LoopExit.countReached
      ∨ (copyLoop noFail 2 0 [7, 8, 9] 0 0 0 [0, 0]).exit
        = LoopExit.eofReached)
    ∧ ((copyLoop noFail 2 0 [7, 8, 9] 0 0 0 [0, 0]).exit
          = LoopExit.countReached →
        0 < 0 ∧ (copyLoop noFail 2 0 [7, 8, 9] 0 0 0 [0, 0]).blocks = 0)
    ∧ (0 = 0 →
        (copyLoop noFail 2 0 [7, 8, 9] 0 0 0 [0, 0]).exit
          = LoopExit.eofReached)
    ∧ ((copyLoop noFail 2 0 [7, 8, 9] 0 0 0 [0, 0]).exit
          = LoopExit.eofReached →
        min 2 (([7, 8, 9] : List Nat).length
          - (copyLoop noFail 2 0 [7, 8, 9] 0 0 0 [0, 0]).finalPos) = 0)
    ∧ (∀ config env, EnvAllOk env →
        (run_singlethreaded_copy config env).result = Except.ok ()) :=
  C2_termination_conditions 2 0 [7, 8, 9] 0 [0, 0]

/-- C8: the copy is deterministic in the input contents and configuration —
running the same job (no seek) twice in fully-successful environments that
agree on the input file contents (but may differ in every other respect,
e.g. the previous output contents) produces byte-identical output files,
and both runs succeed. -/
theorem C8_deterministic (config : CopyConfig) (env1 env2 : Env)
    (h1 : EnvAllOk env1) (h2 : EnvAllOk env2)
    (hin : env1.input = env2.input) (hseek : config.seek = 0) :
    (run_singlethreaded_copy config env1).finalOutput
        = (run_singlethreaded_copy config env2).finalOutput
    ∧ (run_singlethreaded_copy config env1).result = Except.ok ()
    ∧ (run_singlethreaded_copy config env2).result = Except.ok () := by
  rw [run_allOk_spec config env1 h1, run_allOk_spec config env2 h2, hin]
  exact ⟨rfl, rfl, rfl⟩

/-- Witness for C8: the same 5-byte input copied into two environments with
different pre-existing output contents. -/
theorem C8_deterministic_witness :
    (run_singlethreaded_copy cfgA envA).finalOutput
        = (run_singlethreaded_copy cfgA { envA with prevOutput := none }).finalOutput
    ∧ (run_singlethreaded_copy cfgA envA).result = Except.ok ()
    ∧ (run_singlethreaded_copy cfgA
        { envA with prevOutput := none }).result = Except.ok () :=
  C8_deterministic cfgA envA { envA with prevOutput := none }
    envA_allOk ⟨rfl, rfl, rfl, rfl, rfl, rfl, rfl⟩ rfl rfl

/-- C9: if opening the input file fails, the job returns an I/O error from
that open, the I/O trace is empty — the input is opened before the output,
so the output file is never created, opened or truncated — and the output
file keeps exactly its previous state. -/
theorem C9_input_open_failure (config : CopyConfig) (env : Env)
    (h : env.inputExists = false) :
    run_singlethreaded_copy config env =
      { result := .error (.IoError .openInput), trace := [],
        finalOutput := env.prevOutput } := by
  rw [run_singlethreaded_copy, h]
  rfl

/-- Witness for C9: a concrete job whose input file does not exist; the
pre-existing output contents survive untouched. -/
theorem C9_input_open_failure_witness :
    ({ envA with inputExists := false } : Env).inputExists = false
    ∧ run_singlethreaded_copy cfgA { envA with inputExists := false } =
      { result := .error (.IoError .openInput), trace := [],
        finalOutput := some [9] } :=
  ⟨rfl, C9_input_open_failure cfgA { envA with inputExists := false } rfl⟩

/-- The loop's read/write events never contain a truncation event. -/
lemma truncate_notin_loopEvents (chunks : List (List Nat)) :
    IOEvent.truncatedOutput ∉ loopEvents chunks := by
  intro h
  unfold loopEvents at h
  obtain ⟨l, hl, hx⟩ := List.mem_flatten.mp h
  obtain ⟨c, _, rfl⟩ := List.mem_map.mp hl
  simp at hx

/-- C10: whenever both opens succeed, the very first two I/O effects of the
job are opening the input and truncating the output — truncation happens
before any seek, read or write — and from that point on the final output
contents never depend on the output's previous contents: even if a later
step (seek, read, write or flush) fails, the job's resulting output state is
the same as if the previous contents had been anything else, i.e. they are
already destroyed and never restored. -/
theorem C10_truncates_before_io (config : CopyConfig) (env : Env)
    (hi : env.inputExists = true) (ho : env.outputOpenOk = true) :
    (run_singlethreaded_copy config env).trace.take 2
        = [IOEvent.openedInput, IOEvent.truncatedOutput]
    ∧ ∀ p, (run_singlethreaded_copy config
          { env with prevOutput := p }).finalOutput
        = (run_singlethreaded_copy config env).finalOutput := by
  constructor
  · rw [run_singlethreaded_copy, hi, ho]
    simp only [Bool.true_eq_false, if_false]
    by_cases hA : 0 < config.skip ∧ env.inputSeekOk = false
    · rw [if_pos hA]
      rfl
    · rw [if_neg hA]
      by_cases hB : 0 < config.seek ∧ env.outputSeekOk = false
      · rw [if_pos hB]
        rfl
      · rw [if_neg hB]
        try dsimp only
        cases hx : (copyLoop
            { readFailAt := env.readFailAt, writeFailAt := env.writeFailAt }
            config.block_size config.count env.input
            (if 0 < config.skip then
              config.skip * config.block_size % U64_MOD else 0)
            0 0 (List.replicate config.block_size 0)).exit
        rotate_left 2
        · rfl
        · rfl
        all_goals
          by_cases hf : env.flushOk = false
          · simp only [hf]
            rfl
          · have hf2 : env.flushOk = true := by
              revert hf
              cases env.flushOk <;> simp
            simp only [hf2]
            rfl
  · intro p
    simp only [run_singlethreaded_copy, hi, ho, Bool.true_eq_false, if_false]

/-- Witness for C10, at an environment whose flush fails: the job errors,
yet the trace still starts with the truncation and the resulting output
state is independent of what the output file previously held. -/
theorem C10_truncates_before_io_witness :
    ({ envA with flushOk := false } : Env).inputExists = true
    ∧ ({ envA with flushOk := false } : Env).outputOpenOk = true
    ∧ ((run_singlethreaded_copy cfgA { envA with flushOk := false }).trace.take 2
        = [IOEvent.openedInput, IOEvent.truncatedOutput]
      ∧ ∀ p, (run_singlethreaded_copy cfgA
            { { envA with flushOk := false } with prevOutput := p }).finalOutput
          = (run_singlethreaded_copy cfgA
            { envA with flushOk := false }).finalOutput) :=
  ⟨rfl, rfl, C10_truncates_before_io cfgA { envA with flushOk := false } rfl rfl⟩

/-- C7: a successful job result is returned only after the durability flush
(`sync_all`) on the output has itself succeeded — success implies the flush
succeeded and the flush event is in the trace — and if everything else
succeeds but the flush fails, the job fails with exactly that flush I/O
error instead of reporting success. -/
theorem C7_flush_before_success (config : CopyConfig) (env : Env) :
    ((run_singlethreaded_copy config env).result = Except.ok () →
      env.flushOk = true
        ∧ IOEvent.flushed ∈ (run_singlethreaded_copy config env).trace)
    ∧ (env.inputExists = true → env.outputOpenOk = true →
        env.inputSeekOk = true → env.outputSeekOk = true →
        env.readFailAt = none → env.writeFailAt = none →
        env.flushOk = false →
        (run_singlethreaded_copy config env).result
          = Except.error (.IoError .flushOp)) := by
  constructor
  · intro hok
    rw [run_singlethreaded_copy] at hok
    by_cases h1 : env.inputExists = false
    · rw [if_pos h1] at hok
      exact absurd hok (by simp)
    rw [if_neg h1] at hok
    by_cases h2 : env.outputOpenOk = false
    · rw [if_pos h2] at hok
      exact absurd hok (by simp)
    rw [if_neg h2] at hok
    by_cases h3 : 0 < config.skip ∧ env.inputSeekOk = false
    · rw [if_pos h3] at hok
      exact absurd hok (by simp)
    rw [if_neg h3] at hok
    by_cases h4 : 0 < config.seek ∧ env.outputSeekOk = false
    · rw [if_pos h4] at hok
      exact absurd hok (by simp)
    rw [if_neg h4] at hok
    dsimp only at hok
    revert hok
    cases hx : (copyLoop
        { readFailAt := env.readFailAt, writeFailAt := env.writeFailAt }
        config.block_size config.count env.input
        (if 0 < config.skip then
          config.skip * config.block_size % U64_MOD else 0)
        0 0 (List.replicate config.block_size 0)).exit <;>
      intro hok
    rotate_left 2
    · exact absurd hok (by simp)
    · exact absurd hok (by simp)
    all_goals
      by_cases hf : env.flushOk = false
      · rw [if_pos hf] at hok
        exact absurd hok (by simp)
      · have hf2 : env.flushOk = true := by
          revert hf
          cases env.flushOk <;> simp
        refine ⟨hf2, ?_⟩
        rw [run_singlethreaded_copy, if_neg h1, if_neg h2, if_neg h3, if_neg h4]
        dsimp only
        rw [hx]
        simp [hf2]
  · intro h1 h2 h3 h4 h5 h6 h7
    rw [run_singlethreaded_copy, h1, h2]
    simp only [Bool.true_eq_false, if_false]
    rw [if_neg (by simp [h3]), if_neg (by simp [h4])]
    try dsimp only
    rw [h5, h6]
    have hnf : ({ readFailAt := none, writeFailAt := none } : LoopEnv)
        = noFail := rfl
    rw [hnf]
    have hexit := (copyLoop_exit_spec config.block_size config.count env.input
      (if 0 < config.skip then
        config.skip * config.block_size % U64_MOD else 0)
      0 (List.replicate config.block_size 0)).1
    rcases hexit with he | he <;> rw [he] <;> simp [h7]

/-- Witness for C7: the all-success environment versus the same environment
with a failing flush. -/
theorem C7_flush_before_success_witness :
    ((run_singlethreaded_copy cfgA envA).result = Except.ok () →
      envA.flushOk = true
        ∧ IOEvent.flushed ∈ (run_singlethreaded_copy cfgA envA).trace)
    ∧ (envA.inputExists = true → envA.outputOpenOk = true →
        envA.inputSeekOk = true → envA.outputSeekOk = true →
        envA.readFailAt = none → envA.writeFailAt = none →
        envA.flushOk = false →
        (run_singlethreaded_copy cfgA envA).result
          = Except.error (.IoError .flushOp)) :=
  C7_flush_before_success cfgA envA

/-- C3 (amended): when the blocks-to-bytes products do not overflow `u64`,
the input cursor is positioned at exactly `skip * block_size` before the
first read and the output cursor at exactly `seek * block_size`; and (shown
here for `seek = 0`) the output contents are a slice of the input starting
at byte `skip * block_size` — bytes before that offset never appear in the
output. The overflow-freedom itself is a hypothesis, not a property the
code enforces: the multiplication is plain wrapping `u64` arithmetic. -/
theorem C3_exact_positioning (config : CopyConfig) (env : Env)
    (h : EnvAllOk env)
    (hskip : config.skip * config.block_size < U64_MOD)
    (hseek : config.seek * config.block_size < U64_MOD) :
    (0 < config.skip →
      IOEvent.seekedInput (config.skip * config.block_size)
        ∈ (run_singlethreaded_copy config env).trace)
    ∧ (0 < config.seek →
      IOEvent.seekedOutput (config.seek * config.block_size)
        ∈ (run_singlethreaded_copy config env).trace)
    ∧ (config.seek = 0 → ∃ n,
      (run_singlethreaded_copy config env).finalOutput
        = some ((env.input.drop (config.skip * config.block_size)).take n)) := by
  rw [run_allOk_spec config env h, Nat.mod_eq_of_lt hskip,
    Nat.mod_eq_of_lt hseek]
  have hin : (if 0 < config.skip then
      config.skip * config.block_size % U64_MOD else 0)
      = config.skip * config.block_size := by
    by_cases hs : 0 < config.skip
    · rw [if_pos hs]
      exact Nat.mod_eq_of_lt hskip
    · rw [if_neg hs]
      have h0 : config.skip = 0 := by omega
      rw [h0, Nat.zero_mul]
  refine ⟨fun hs => ?_, fun hk => ?_, fun hk0 => ?_⟩
  · try dsimp only
    rw [if_pos hs]
    simp
  · try dsimp only
    rw [if_pos hk]
    simp
  · try dsimp only
    rw [jobOutput]
    try dsimp only
    rw [hin, hk0]
    simp only [lt_self_iff_false, if_false]
    refine ⟨(copyLoop noFail config.block_size config.count env.input
      (config.skip * config.block_size) 0 0
      (List.replicate config.block_size 0)).finalPos
        - config.skip * config.block_size, ?_⟩
    have hfl := copyLoop_flatten_eq config.block_size config.count env.input
      (config.skip * config.block_size) 0 0
      (List.replicate config.block_size 0)
    by_cases hemp : (copyLoop noFail config.block_size config.count env.input
        (config.skip * config.block_size) 0 0
        (List.replicate config.block_size 0)).chunks.flatten.isEmpty = true
    · rw [if_pos hemp]
      have hnil : (copyLoop noFail config.block_size config.count env.input
          (config.skip * config.block_size) 0 0
          (List.replicate config.block_size 0)).chunks.flatten = [] := by
        simpa using hemp
      rw [hnil] at hfl
      rw [← hfl]
    · rw [if_neg hemp]
      rw [List.replicate_zero, List.nil_append, hfl]

/-- Configuration for the C3 witness: the spec's concrete scenario skip=2,
block_size=512 (input cursor at byte 1024). -/
def cfgSkip : CopyConfig :=
  { input_file := "in.bin", output_file := "out.bin", block_size := 512,
    count := 1, skip := 2, seek := 0, show_progress := true,
    verification_algo := none, threads := 1, use_direct_io := false }

/-- Witness for C3 (amended), at skip=2, block_size=512: the input seek
event carries exactly byte offset 1024 and the output is a slice of the
input starting there. -/
theorem C3_exact_positioning_witness :
    EnvAllOk envA
    ∧ cfgSkip.skip * cfgSkip.block_size < U64_MOD
    ∧ cfgSkip.seek * cfgSkip.block_size < U64_MOD
    ∧ ((0 < cfgSkip.skip →
        IOEvent.seekedInput (cfgSkip.skip * cfgSkip.block_size)
          ∈ (run_singlethreaded_copy cfgSkip envA).trace)
      ∧ (0 < cfgSkip.seek →
        IOEvent.seekedOutput (cfgSkip.seek * cfgSkip.block_size)
          ∈ (run_singlethreaded_copy cfgSkip envA).trace)
      ∧ (cfgSkip.seek = 0 → ∃ n,
        (run_singlethreaded_copy cfgSkip envA).finalOutput
          = some ((envA.input.drop
              (cfgSkip.skip * cfgSkip.block_size)).take n))) :=
  ⟨envA_allOk, by decide, by decide,
    C3_exact_positioning cfgSkip envA envA_allOk (by decide) (by decide)⟩

/-- Configuration exhibiting the C3 overflow: skip = 2^63 with a 2-byte
block size, whose byte offset 2^64 wraps to 0 in `u64` arithmetic. -/
def cfgWrap : CopyConfig :=
  { input_file := "in.bin", output_file := "out.bin", block_size := 2,
    count := 5, skip := 2 ^ 63, seek := 0, show_progress := true,
    verification_algo := none, threads := 1, use_direct_io := false }

/-- Environment for the C3 counterexample: a 2-byte input file. -/
def envWrap : Env :=
  { inputExists := true, input := [7, 8], prevOutput := none,
    outputOpenOk := true, inputSeekOk := true, outputSeekOk := true,
    readFailAt := none, writeFailAt := none, flushOk := true }

/-- Counterexample for C3: with skip = 2^63 and block_size = 2 the
blocks-to-bytes multiplication equals 2^64, which overflows `u64` and wraps
to 0 (release-mode semantics), so the input cursor is positioned at byte 0 —
not at skip × block_size — and both input bytes, which lie before offset
skip × block_size, appear in the output. The code performs no overflow
check on `config.skip * config.block_size as u64`. -/
theorem C3_counterexample :
    cfgWrap.skip * cfgWrap.block_size = 2 ^ 64
    ∧ (cfgWrap.skip * cfgWrap.block_size) % U64_MOD = 0
    ∧ IOEvent.seekedInput 0 ∈ (run_singlethreaded_copy cfgWrap envWrap).trace
    ∧ (run_singlethreaded_copy cfgWrap envWrap).finalOutput = some [7, 8]
    ∧ envWrap.input = [7, 8] := by
  have hok : EnvAllOk envWrap := ⟨rfl, rfl, rfl, rfl, rfl, rfl, rfl⟩
  have h1 : 0 < cfgWrap.skip := by norm_num [cfgWrap]
  have h2 : ¬0 < cfgWrap.seek := by norm_num [cfgWrap]
  have hmod : (cfgWrap.skip * cfgWrap.block_size) % U64_MOD = 0 := by decide
  refine ⟨by decide, hmod, ?_, ?_, rfl⟩
  · rw [run_allOk_spec cfgWrap envWrap hok]
    try dsimp only
    rw [if_pos h1, hmod]
    simp
  · rw [run_allOk_spec cfgWrap envWrap hok]
    try dsimp only
    congr 1
    rw [jobOutput]
    try dsimp only
    rw [if_pos h1, if_neg h2, hmod]
    have hcon : (copyLoop noFail cfgWrap.block_size cfgWrap.count envWrap.input
        0 0 0 (List.replicate cfgWrap.block_size 0)).finalPos = 2 := by
      have hc := copyLoop_consume cfgWrap.block_size cfgWrap.count
        envWrap.input 0 0 (List.replicate cfgWrap.block_size 0)
        (by simp [envWrap]) (by simp [cfgWrap, envWrap])
      simpa [envWrap] using hc
    have hfl := copyLoop_flatten_eq cfgWrap.block_size cfgWrap.count
      envWrap.input 0 0 0 (List.replicate cfgWrap.block_size 0)
    rw [hcon] at hfl
    have hfl2 : (copyLoop noFail cfgWrap.block_size cfgWrap.count
        envWrap.input 0 0 0
        (List.replicate cfgWrap.block_size 0)).chunks.flatten = [7, 8] := by
      rw [hfl]
      rfl
    rw [hfl2]
    rfl
